import Mathlib

/-!
Verification development for the `msgspec_ext` settings loader
(`src/msgspec_ext/settings.py`).

The embedding is shallow: each Python function of the module is translated
into an executable Lean definition over explicit state.  External library
calls (the msgspec JSON codec, python-dotenv's `load_dotenv`) are modelled
by concrete Lean functions whose doc comments state exactly which documented
behavior of the library they capture; pure memoization caches of the Python
code (struct-class cache, encoder/decoder cache, field-name mapping cache,
type-unwrap cache) are elided because they only replay pure computations.
-/

namespace MsgspecExt

/-- JSON-compatible runtime values.  `vnum` carries the accepted textual
form of a non-integral number; no claim depends on numeric float semantics,
only on which strings are accepted. -/
inductive Value where
  | vnull : Value
  | vbool (b : Bool) : Value
  | vint (n : Int) : Value
  | vnum (raw : String) : Value
  | vstr (s : String) : Value
  | varr (xs : List Value) : Value
  | vobj (kvs : List (String × Value)) : Value

/-- Non-union annotation types: the scalar fast-path types of
`_preprocess_env_value` (settings.py:318-325), `NoneType`, and a
constructor for any other annotation, which the coercion engine leaves to
the fallback branch (settings.py:339). -/
inductive ScalarType where
  | str : ScalarType
  | bool : ScalarType
  | int : ScalarType
  | float : ScalarType
  | noneType : ScalarType
  | other (name : String) : ScalarType
deriving DecidableEq, Repr

/-- Declared field types as they appear in the settings class annotations.
Union members are non-union by construction because CPython's `typing`
module flattens nested unions, so `get_args` of a `Union` never yields a
`Union` (settings.py:328-337 relies on this shape). -/
inductive FieldType where
  | scalar (s : ScalarType) : FieldType
  | union (args : List ScalarType) : FieldType
deriving DecidableEq, Repr

/-- Whether a declared type is the `NoneType` absence type; the union
branch of the coercion engine filters these out (settings.py:331,
`a is not type(None)`). -/
def ScalarType.isNoneType : ScalarType → Bool
  | .noneType => true
  | _ => false

/-- The opening-brace character, written by code so that no brace appears
inside a character literal. -/
def lbraceChar : Char := Char.ofNat 123

/-- The closing-brace character. -/
def rbraceChar : Char := Char.ofNat 125

/-- Character-list whitespace skipping used by the JSON decoder model. -/
def skipWs : List Char → List Char
  | [] => []
  | c :: rest =>
    if c = ' ' ∨ c = '\t' ∨ c = '\n' ∨ c = '\r' then skipWs rest else c :: rest

/-- Decimal digit run: returns the digits read and the remaining input. -/
def takeDigits : List Char → List Char × List Char
  | [] => ([], [])
  | c :: rest =>
    if c.isDigit then
      let (ds, r) := takeDigits rest
      (c :: ds, r)
    else ([], c :: rest)

/-- Natural-number value of a digit list (most significant first). -/
def digitsToNat (ds : List Char) : Nat :=
  ds.foldl (fun acc c => acc * 10 + (c.toNat - 48)) 0

/-- ASCII lowercasing, modelling Python `str.lower()` on the ASCII inputs
the claims exercise. -/
def asciiLower (s : String) : String :=
  ⟨s.data.map Char.toLower⟩

/-- ASCII uppercasing, modelling Python `str.upper()` on the ASCII inputs
the claims exercise. -/
def asciiUpper (s : String) : String :=
  ⟨s.data.map Char.toUpper⟩

/-- Parse the body of a JSON string (after the opening quote), handling the
common escapes; `\\u` escapes are decoded from four hex digits without
surrogate pairing.  Models the string grammar accepted by `msgspec.json`
closely enough for the claims, none of which exercises escape corners. -/
def parseStringBody (fuel : Nat) (cs : List Char) : Except String (String × List Char) :=
  match fuel with
  | 0 => .error "input too deep"
  | fuel + 1 =>
    match cs with
    | [] => .error "truncated string"
    | c :: rest =>
      if c = '"' then .ok ("", rest)
      else if c = '\\' then
        match rest with
        | [] => .error "truncated escape"
        | e :: rest2 =>
          let simple : Option Char :=
            if e = '"' then some '"'
            else if e = '\\' then some '\\'
            else if e = '/' then some '/'
            else if e = 'n' then some '\n'
            else if e = 't' then some '\t'
            else if e = 'r' then some '\r'
            else if e = 'b' then some (Char.ofNat 8)
            else if e = 'f' then some (Char.ofNat 12)
            else none
          match simple with
          | some ch =>
            match parseStringBody fuel rest2 with
            | .ok (s, r) => .ok (⟨ch :: s.data⟩, r)
            | .error msg => .error msg
          | none =>
            if e = 'u' then
              match rest2 with
              | h1 :: h2 :: h3 :: h4 :: rest3 =>
                let hexVal (h : Char) : Option Nat :=
                  if h.isDigit then some (h.toNat - 48)
                  else if 'a' ≤ h ∧ h ≤ 'f' then some (h.toNat - 87)
                  else if 'A' ≤ h ∧ h ≤ 'F' then some (h.toNat - 55)
                  else none
                match hexVal h1, hexVal h2, hexVal h3, hexVal h4 with
                | some a, some b, some c1, some d =>
                  match parseStringBody fuel rest3 with
                  | .ok (s, r) =>
                    .ok (⟨Char.ofNat (((a * 16 + b) * 16 + c1) * 16 + d) :: s.data⟩, r)
                  | .error msg => .error msg
                | _, _, _, _ => .error "invalid unicode escape"
              | _ => .error "truncated unicode escape"
            else .error "invalid escape"
      else
        match parseStringBody fuel rest with
        | .ok (s, r) => .ok (⟨c :: s.data⟩, r)
        | .error msg => .error msg

/-- Parse a JSON number starting at `cs` (first character a digit or a
minus sign).  Pure-integer literals become `vint`; literals with a
fractional or exponent part are kept textually as `vnum`. -/
def parseNumber (cs : List Char) : Except String (Value × List Char) :=
  let (neg, cs1) :=
    match cs with
    | c :: rest => if c = '-' then (true, rest) else (false, cs)
    | [] => (false, cs)
  let (intDigits, cs2) := takeDigits cs1
  if intDigits.isEmpty then .error "invalid number"
  else
    let (fracPart, cs3) :=
      match cs2 with
      | c :: rest =>
        if c = '.' then
          let (ds, r) := takeDigits rest
          (('.' :: ds), r)
        else ([], cs2)
      | [] => ([], cs2)
    let (expPart, cs4) :=
      match cs3 with
      | c :: rest =>
        if c = 'e' ∨ c = 'E' then
          let (sgn, r1) :=
            match rest with
            | s :: r => if s = '+' ∨ s = '-' then ([s], r) else ([], rest)
            | [] => ([], rest)
          let (ds, r2) := takeDigits r1
          ((c :: sgn ++ ds), r2)
        else ([], cs3)
      | [] => ([], cs3)
    if fracPart.isEmpty ∧ expPart.isEmpty then
      let n : Int := Int.ofNat (digitsToNat intDigits)
      .ok (.vint (if neg then -n else n), cs2)
    else
      let raw : List Char := (if neg then ['-'] else []) ++ intDigits ++ fracPart ++ expPart
      .ok (.vnum ⟨raw⟩, cs4)

/-- Whether the input starts with the given literal word, returning the rest. -/
def stripWord : List Char → List Char → Option (List Char)
  | [], cs => some cs
  | _ :: _, [] => none
  | w :: ws, c :: cs => if w = c then stripWord ws cs else none

/-- What the recursive-descent JSON parser is currently parsing: a single
value, the items of an array (with a flag telling whether an item was
already consumed), or the members of an object. -/
inductive ParseTask where
  | value : ParseTask
  | arrayItems (first : Bool) : ParseTask
  | objectItems (first : Bool) : ParseTask

/-- Recursive-descent parser core.  This is the model of the external
`msgspec.json.decode` codec called at settings.py:308; the grammar is
standard JSON (objects, arrays, strings, numbers, `true`/`false`/`null`),
with fuel bounding recursion depth.  It is a single structurally recursive
function so that it evaluates by kernel reduction. -/
def parseCore (fuel : Nat) (task : ParseTask) (cs : List Char) : Except String (Value × List Char) :=
  match fuel with
  | 0 => .error "input too deep"
  | fuel + 1 =>
    match task with
    | .value =>
      match skipWs cs with
      | [] => .error "unexpected end of input"
      | c :: rest =>
        if c = lbraceChar then parseCore fuel (.objectItems true) rest
        else if c = '[' then parseCore fuel (.arrayItems true) rest
        else if c = '"' then
          match parseStringBody fuel rest with
          | .ok (s, r) => .ok (.vstr s, r)
          | .error msg => .error msg
        else if c = 't' then
          match stripWord ['r', 'u', 'e'] rest with
          | some r => .ok (.vbool true, r)
          | none => .error "invalid literal"
        else if c = 'f' then
          match stripWord ['a', 'l', 's', 'e'] rest with
          | some r => .ok (.vbool false, r)
          | none => .error "invalid literal"
        else if c = 'n' then
          match stripWord ['u', 'l', 'l'] rest with
          | some r => .ok (.vnull, r)
          | none => .error "invalid literal"
        else if c.isDigit ∨ c = '-' then parseNumber (c :: rest)
        else .error "invalid character"
    | .arrayItems first =>
      match skipWs cs with
      | [] => .error "truncated array"
      | c :: rest =>
        if c = ']' then .ok (.varr [], rest)
        else if (¬ first) ∧ c ≠ ',' then .error "expected comma in array"
        else
          let body : List Char := if first then c :: rest else rest
          match parseCore fuel .value body with
          | .error msg => .error msg
          | .ok (v, r) =>
            match parseCore fuel (.arrayItems false) r with
            | .ok (.varr xs, r2) => .ok (.varr (v :: xs), r2)
            | .ok _ => .error "invalid array"
            | .error msg => .error msg
    | .objectItems first =>
      match skipWs cs with
      | [] => .error "truncated object"
      | c :: rest =>
        if c = rbraceChar then .ok (.vobj [], rest)
        else if (¬ first) ∧ c ≠ ',' then .error "expected comma in object"
        else
          let body : List Char := if first then c :: rest else rest
          match skipWs body with
          | q :: rest2 =>
            if q = '"' then
              match parseStringBody fuel rest2 with
              | .error msg => .error msg
              | .ok (k, r) =>
                match skipWs r with
                | colon :: r2 =>
                  if colon = ':' then
                    match parseCore fuel .value r2 with
                    | .error msg => .error msg
                    | .ok (v, r3) =>
                      match parseCore fuel (.objectItems false) r3 with
                      | .ok (.vobj kvs, r4) => .ok (.vobj ((k, v) :: kvs), r4)
                      | .ok _ => .error "invalid object"
                      | .error msg => .error msg
                  else .error "expected colon"
                | [] => .error "truncated object"
            else .error "expected string key"
          | [] => .error "truncated object"

/-- Model of `msgspec.json.decode` on a UTF-8 string (settings.py:308):
parse exactly one JSON value and require only whitespace to follow.  The
fuel `2 * length + 2` dominates the recursion depth of `parseCore`, which
consumes at least one character every two nested calls. -/
def msgspecJsonDecode (s : String) : Except String Value :=
  match parseCore (2 * s.length + 2) .value s.data with
  | .error msg => .error msg
  | .ok (v, rest) =>
    match skipWs rest with
    | [] => .ok v
    | _ :: _ => .error "trailing characters"

/-- Guard of the structured fast path (settings.py:306,
`if env_value and env_value[0] in "\x7b["`): the string is non-empty and its
first character is an opening brace or bracket.  The emptiness test is
evaluated first, exactly as Python truthiness guards the index access. -/
def structGuard (s : String) : Bool :=
  match s.data with
  | [] => false
  | c :: _ => c = lbraceChar ∨ c = '['

/-- Model of CPython `int(env_value)` for the decimal literals relevant
here (settings.py:323): surrounding ASCII whitespace stripped, optional
sign, then a non-empty digit run.  Underscored literal grouping of CPython
is not modelled; no claim depends on it. -/
def pythonInt (s : String) : Option Int :=
  let cs := skipWs s.data
  let (neg, cs1) :=
    match cs with
    | c :: rest => if c = '-' then (true, rest) else if c = '+' then (false, rest) else (false, cs)
    | [] => (false, cs)
  let (ds, rest) := takeDigits cs1
  if ds.isEmpty ∨ ¬ (skipWs rest).isEmpty then none
  else
    let n : Int := Int.ofNat (digitsToNat ds)
    some (if neg then -n else n)

/-- Digit run with the list consumed; helper for the float recognizer. -/
def allDigits (cs : List Char) : Bool :=
  cs.all (fun c => c.isDigit)

/-- Model of CPython `float(env_value)` as a recognizer (settings.py:325):
optional sign, then either a decimal literal with optional fraction and
exponent, or the case-insensitive words inf/infinity/nan.  Only acceptance
matters to the embedding — the numeric value of a float never does. -/
def pythonFloatValid (s : String) : Bool :=
  let cs := skipWs s.data
  let csr := (skipWs cs.reverse).reverse
  let body :=
    match csr with
    | c :: rest => if c = '-' ∨ c = '+' then rest else csr
    | [] => csr
  let lower := body.map Char.toLower
  if lower = ['i', 'n', 'f'] ∨ lower = ['i', 'n', 'f', 'i', 'n', 'i', 't', 'y'] ∨
      lower = ['n', 'a', 'n'] then true
  else
    let (ip, r1) := takeDigits body
    let (fp, r2) :=
      match r1 with
      | c :: rest => if c = '.' then takeDigits rest else ([], r1)
      | [] => ([], r1)
    if ip.isEmpty ∧ fp.isEmpty then false
    else
      match r2 with
      | [] => true
      | e :: r3 =>
        if e = 'e' ∨ e = 'E' then
          let r4 :=
            match r3 with
            | s1 :: r => if s1 = '+' ∨ s1 = '-' then r else r3
            | [] => r3
          let (ed, r5) := takeDigits r4
          (¬ ed.isEmpty) ∧ r5.isEmpty
        else false

/-- The scalar fast paths and the fallback of `_preprocess_env_value`
(settings.py:317-325 and 339), reached when the structured guard is false:
`str` is identity, `bool` tests the lowercased value against the accepted
truthy literals, `int`/`float` parse and fail on non-numeric text, and any
other type (including `NoneType`, which no fast path matches) falls through
to returning the raw string. -/
def scalarCoerce (v : String) (t : ScalarType) : Except String Value :=
  match t with
  | .str => .ok (.vstr v)
  | .bool => .ok (.vbool (["true", "1", "yes", "y", "t"].contains (asciiLower v)))
  | .int =>
    match pythonInt v with
    | some n => .ok (.vint n)
    | none => .error ("invalid literal for int() with base 10: " ++ v)
  | .float =>
    if pythonFloatValid v then .ok (.vnum v) else
      .error ("could not convert string to float: " ++ v)
  | .noneType => .ok (.vstr v)
  | .other _ => .ok (.vstr v)

/-- Shallow embedding of `BaseSettings._preprocess_env_value`
(settings.py:299-339).  The structured fast path is tried first; then the
scalar fast paths by declared type; a union is unwrapped to the first
member that is not `NoneType` (`non_none[0]`, settings.py:330-334) and the
code recurses on that member — since the member is non-union and the raw
string is unchanged (so the structured guard stays false), the recursive
call is exactly `scalarCoerce`; a union with only `NoneType` members falls
through to returning the raw string.  The `_type_cache` memoization of the
Python code (lines 312-315 and 335) is elided: its entries map a union type
to exactly the member this definition dispatches to, so a cache hit replays
the same computation. -/
def preprocessEnvValue (v : String) (t : FieldType) : Except String Value :=
  if structGuard v then
    match msgspecJsonDecode v with
    | .ok j => .ok j
    | .error e => .error ("Invalid JSON in env var: " ++ e)
  else
    match t with
    | .scalar s => scalarCoerce v s
    | .union args =>
      match args.filter (fun a => ! a.isNoneType) with
      | [] => .ok (.vstr v)
      | m :: _ => scalarCoerce v m

/-- A declared settings field: its name, annotation, and the default value
taken from the class attribute when one exists (`hasattr`,
settings.py:114-120); `none` means the field is required. -/
structure FieldDecl where
  name : String
  type : FieldType
  default : Option Value

/-- The configuration record `SettingsConfigDict` (settings.py:13-20).
The env-file field is optional (`None` by default); the nested delimiter is
carried but never consulted by the loading logic. -/
structure SettingsConfigDict where
  envFile : Option String := none
  envFileEncoding : String := "utf-8"
  caseSensitive : Bool := false
  envPrefixStr : String := ""
  envNestedDelimiter : String := "__"

/-- Whether an annotation entry takes part in the struct schema: the
`model_config` entry is skipped (settings.py:110-111). -/
def isSchemaField (fd : FieldDecl) : Bool :=
  fd.name ≠ "model_config"

/-- The single pass of `_create_struct_class` over the class annotations
(settings.py:105-120): skip `model_config`, append fields with a default to
the optional accumulator and the rest to the required accumulator. -/
def partitionFields (anns : List FieldDecl) (required optional : List FieldDecl) :
    List FieldDecl × List FieldDecl :=
  match anns with
  | [] => (required, optional)
  | fd :: rest =>
    if fd.name = "model_config" then partitionFields rest required optional
    else
      match fd.default with
      | some _ => partitionFields rest required (optional ++ [fd])
      | none => partitionFields rest (required ++ [fd]) optional

/-- The field list of the dynamically created struct
(settings.py:105-124): required fields first, then optional fields, each
group in declaration order (`fields = required_fields + optional_fields`). -/
def createStructFields (anns : List FieldDecl) : List FieldDecl :=
  let (required, optional) := partitionFields anns [] []
  required ++ optional

/-- The environment-name mapper `_get_env_name` (settings.py:277-297):
identity fast path when case-sensitive with an empty prefix, otherwise
uppercase unless case-sensitive and prepend the prefix when non-empty.
Python truthiness of the prefix string is the emptiness test. -/
def getEnvName (cfg : SettingsConfigDict) (fieldName : String) : String :=
  if cfg.caseSensitive ∧ cfg.envPrefixStr = "" then fieldName
  else
    let n := if cfg.caseSensitive then fieldName else asciiUpper fieldName
    if cfg.envPrefixStr = "" then n else cfg.envPrefixStr ++ n

/-- The process environment `os.environ`, as an association list read
through first-match lookup. -/
abbrev EnvMap := List (String × String)

/-- The environment-sourced working map builder `_collect_env_values`
(settings.py:241-275): for each struct field in order, look its mapped
environment name up; a present value is coerced (an exception from the
coercion engine propagates, aborting collection), an absent variable is
omitted from the map.  The per-class field-name mapping cache
(settings.py:250-256) is elided as pure memoization of `_get_env_name`. -/
def collectEnvValues (cfg : SettingsConfigDict) (fields : List FieldDecl) (env : EnvMap) :
    Except String (List (String × Value)) :=
  match fields with
  | [] => .ok []
  | fd :: rest =>
    match env.lookup (getEnvName cfg fd.name) with
    | none => collectEnvValues cfg rest env
    | some raw =>
      match preprocessEnvValue raw fd.type with
      | .error e => .error e
      | .ok v =>
        match collectEnvValues cfg rest env with
        | .error e => .error e
        | .ok m => .ok ((fd.name, v) :: m)

/-- The name of the first required field that the working map does not
provide, if any; this is the field a struct decode reports as missing. -/
def missingRequiredName (fields : List FieldDecl) (values : List (String × Value)) :
    Option String :=
  match fields.find? (fun fd => fd.default.isNone && (values.lookup fd.name).isNone) with
  | some fd => some fd.name
  | none => none

/-- Field-by-field instantiation: each declared field takes the working
map's value when present and its schema default otherwise.  The branch for
a required field absent from the map is unreachable when
`missingRequiredName` finds nothing and is dropped. -/
def instantiateFields (fields : List FieldDecl) (values : List (String × Value)) :
    List (String × Value) :=
  fields.filterMap (fun fd =>
    match values.lookup fd.name with
    | some v => some (fd.name, v)
    | none =>
      match fd.default with
      | some d => some (fd.name, d)
      | none => none)

/-- Model of `_decode_from_dict` (settings.py:185-214): the working map is
round-tripped through the external msgspec encoder/decoder pair for the
struct type.  The encoder/decoder cache (lines 195-203) is pure
memoization and elided.  The decode itself is external msgspec code,
modelled at the level the claims need: a missing required field makes
msgspec raise a ValidationError naming it, which the method wraps into the
message prefix `Validation error: ` (line 211); otherwise every declared
field is populated from the map or from its schema default.  Unknown keys
are passed through to the codec and msgspec is configured without
`forbid_unknown_fields` (settings.py:127-131), so the model drops them;
per-value type conformance checking of the codec is not modelled — no
claim is settled on it. -/
def decodeFromDict (fields : List FieldDecl) (values : List (String × Value)) :
    Except String (List (String × Value)) :=
  match missingRequiredName fields values with
  | some name => .error ("Validation error: Object missing required field " ++ name)
  | none => .ok (instantiateFields fields values)

/-- The mutable class-level state that the env-file loader consults
(settings.py:57-64): the literal-path-to-absolute-path cache and the set of
absolute paths already merged into the environment. -/
structure LoaderState where
  absolutePathCache : List (String × String)
  loadedEnvFiles : List String

/-- The host system as the loader sees it: the working directory used to
absolutize relative paths, and the file system, exposing existence and the
parsed key/value entries of a dotenv file. -/
structure Sys where
  cwd : String
  fileExists : String → Bool
  fileContent : String → List (String × String)

/-- Path absolutization, modelling `Path(p).absolute()`
(settings.py:227-228): a relative path is joined onto the working
directory. -/
def absolutePath (cwd p : String) : String :=
  if p.startsWith "/" then p else cwd ++ "/" ++ p

/-- The cache key `_load_env_files` resolves for a configured path
(settings.py:225-229): the cached absolute path when the literal string was
seen before, the freshly absolutized path otherwise. -/
def resolveCacheKey (st : LoaderState) (cwd f : String) : String :=
  match st.absolutePathCache.lookup f with
  | some k => k
  | none => absolutePath cwd f

/-- Insert a key into the environment only when absent; this is how
python-dotenv's `load_dotenv` with its default `override=False` treats each
entry of the file: a key already present in the process environment is left
untouched. -/
def setIfAbsent (env : EnvMap) (k v : String) : EnvMap :=
  match env.lookup k with
  | some _ => env
  | none => env ++ [(k, v)]

/-- Merge the parsed entries of a dotenv file into the environment without
overwriting, modelling the `load_dotenv` call at settings.py:235-238. -/
def dotenvMerge (env : EnvMap) (entries : List (String × String)) : EnvMap :=
  entries.foldl (fun e kv => setIfAbsent e kv.1 kv.2) env

/-- Shallow embedding of `_load_env_files` (settings.py:216-239): no-op
without a configured env file (Python truthiness also skips the empty
string); resolve the cache key, populating the literal-path cache on a
miss; when the key is not yet in the loaded set and the file exists, merge
its entries into the environment and mark the key loaded; a missing file is
not an error and is not marked. -/
def loadEnvFiles (cfg : SettingsConfigDict) (sys : Sys) (st : LoaderState) (env : EnvMap) :
    LoaderState × EnvMap :=
  match cfg.envFile with
  | none => (st, env)
  | some f =>
    if f = "" then (st, env)
    else
      let key := resolveCacheKey st sys.cwd f
      let cache :=
        match st.absolutePathCache.lookup f with
        | some _ => st.absolutePathCache
        | none => st.absolutePathCache ++ [(f, key)]
      if key ∈ st.loadedEnvFiles then
        ({ st with absolutePathCache := cache }, env)
      else if sys.fileExists f then
        ({ absolutePathCache := cache, loadedEnvFiles := st.loadedEnvFiles ++ [key] },
          dotenvMerge env (sys.fileContent f))
      else
        ({ st with absolutePathCache := cache }, env)

/-- Shallow embedding of `BaseSettings.__new__` (settings.py:69-86)
composed with `_create_from_env` (settings.py:160-177) and
`_create_from_dict` (settings.py:179-183): without keyword overrides, load
the env file, collect coerced environment values and bulk-decode them; with
overrides, bulk-decode the overrides directly.  The struct-class cache
(settings.py:88-93) is pure memoization of `createStructFields` and is
elided.  The result carries the constructed instance (or the raised
error), the loader state, and the possibly extended environment. -/
def settingsNew (cfg : SettingsConfigDict) (anns : List FieldDecl)
    (overrides : List (String × Value)) (sys : Sys) (st : LoaderState) (env : EnvMap) :
    Except String (List (String × Value)) × LoaderState × EnvMap :=
  let fields := createStructFields anns
  if overrides.isEmpty then
    let (st1, env1) := loadEnvFiles cfg sys st env
    match collectEnvValues cfg fields env1 with
    | .error e => (.error e, st1, env1)
    | .ok m => (decodeFromDict fields m, st1, env1)
  else
    (decodeFromDict fields overrides, st, env)

/-- The mutable state a no-override construction leaves behind: the loader
state and environment threaded through `settingsNew` with an empty
override map.  N successive constructions iterate this step. -/
def constructStep (cfg : SettingsConfigDict) (anns : List FieldDecl) (sys : Sys)
    (p : LoaderState × EnvMap) : LoaderState × EnvMap :=
  (settingsNew cfg anns [] sys p.1 p.2).2

/-- The schema partition predicate for required fields: a declared field
other than `model_config` with no default. -/
def isRequiredDecl (fd : FieldDecl) : Bool :=
  isSchemaField fd && fd.default.isNone

/-- The schema partition predicate for optional fields: a declared field
other than `model_config` with a default. -/
def isOptionalDecl (fd : FieldDecl) : Bool :=
  isSchemaField fd && fd.default.isSome

/-- The accumulating pass of `_create_struct_class` computes exactly the
filter-partition of the declarations, appended to the accumulators. -/
theorem partitionFields_eq_filter (anns : List FieldDecl) :
    ∀ req opt, partitionFields anns req opt =
      (req ++ anns.filter isRequiredDecl, opt ++ anns.filter isOptionalDecl) := by
  induction anns with
  | nil => intro req opt; simp [partitionFields]
  | cons fd rest ih =>
    intro req opt
    by_cases hm : fd.name = "model_config"
    · simp [partitionFields, hm, ih, List.filter_cons, isRequiredDecl, isOptionalDecl,
        isSchemaField]
    · rcases hd : fd.default with _ | d
      · simp [partitionFields, hm, hd, ih, List.filter_cons, isRequiredDecl, isOptionalDecl,
          isSchemaField]
      · simp [partitionFields, hm, hd, ih, List.filter_cons, isRequiredDecl, isOptionalDecl,
          isSchemaField]

/-- Dropping a prefix whose elements all satisfy the predicate reduces a
`dropWhile` over an append to the second list. -/
theorem dropWhile_append_of_all {α : Type} (p : α → Bool) (A B : List α)
    (hA : ∀ x ∈ A, p x = true) : (A ++ B).dropWhile p = B.dropWhile p := by
  induction A with
  | nil => simp
  | cons a A ih =>
    have ha : p a = true := hA a (List.mem_cons_self a A)
    simp only [List.cons_append, List.dropWhile_cons, ha, if_true]
    exact ih (fun x hx => hA x (List.mem_cons_of_mem a hx))

/-- C6: the derived struct field list places all required fields before
all optional fields — it is the required-filter of the declarations
followed by the optional-filter, each filter preserving the original
relative declaration order; consequently, once an optional field appears,
every later field is optional. -/
theorem required_fields_precede_optional (anns : List FieldDecl) :
    createStructFields anns =
      anns.filter isRequiredDecl ++ anns.filter isOptionalDecl ∧
    ((createStructFields anns).dropWhile (fun fd => fd.default.isNone)).all
      (fun fd => fd.default.isSome) = true := by
  have heq : createStructFields anns =
      anns.filter isRequiredDecl ++ anns.filter isOptionalDecl := by
    simp [createStructFields, partitionFields_eq_filter]
  refine ⟨heq, ?_⟩
  rw [heq]
  have hreq : ∀ x ∈ anns.filter isRequiredDecl, (fun fd => fd.default.isNone) x = true := by
    intro x hx
    have := (List.mem_filter.mp hx).2
    simp only [isRequiredDecl, Bool.and_eq_true] at this
    exact this.2
  rw [dropWhile_append_of_all _ _ _ hreq]
  have hopt : ∀ x ∈ anns.filter isOptionalDecl, x.default.isSome = true := by
    intro x hx
    have := (List.mem_filter.mp hx).2
    simp only [isOptionalDecl, Bool.and_eq_true] at this
    exact this.2
  rcases hB : anns.filter isOptionalDecl with _ | ⟨b, B⟩
  · simp
  · have hb : b.default.isSome = true := hopt b (by rw [hB]; exact List.mem_cons_self b B)
    have hbn : b.default.isNone = false := by
      rcases hdb : b.default with _ | d
      · rw [hdb] at hb; simp at hb
      · simp
    simp only [List.dropWhile_cons, hbn, Bool.false_eq_true, if_false]
    rw [List.all_eq_true]
    intro x hx
    exact hopt x (by rw [hB]; exact hx)

/-- C4: for every raw environment string whose first character is an
opening brace or bracket, coercion parses it as a structured JSON value
through the codec, with a decode failure surfaced as the wrapped decode
error — and the declared field type plays no role: coercion at any two
declared types agrees. -/
theorem structured_values_take_precedence (v : String) (t u : FieldType)
    (h : structGuard v = true) :
    preprocessEnvValue v t =
      Except.mapError (fun e => "Invalid JSON in env var: " ++ e) (msgspecJsonDecode v) ∧
    preprocessEnvValue v t = preprocessEnvValue v u := by
  have hone : ∀ w : FieldType, preprocessEnvValue v w =
      Except.mapError (fun e => "Invalid JSON in env var: " ++ e) (msgspecJsonDecode v) := by
    intro w
    simp only [preprocessEnvValue, h, if_true]
    cases msgspecJsonDecode v <;> simp [Except.mapError]
  exact ⟨hone t, (hone t).trans (hone u).symm⟩

/-- Witness for C4 at the malformed structured value consisting of a
single opening brace, declared as a string field and as an int field. -/
theorem structured_values_take_precedence_witness :
    structGuard "\x7b" = true ∧
    (preprocessEnvValue "\x7b" (.scalar .str) =
      Except.mapError (fun e => "Invalid JSON in env var: " ++ e) (msgspecJsonDecode "\x7b") ∧
    preprocessEnvValue "\x7b" (.scalar .str) = preprocessEnvValue "\x7b" (.scalar .int)) :=
  ⟨rfl, structured_values_take_precedence "\x7b" (.scalar .str) (.scalar .int) rfl⟩

/-- C5 counterexample: the claim asserts boolean coercion never fails and
yields `false` on every non-truthy string, but the raw string consisting of
a single opening bracket hits the structured fast path first and coercion
raises a decode error instead of producing a boolean. -/
theorem bool_coercion_fails_on_bracket :
    preprocessEnvValue "[" (.scalar .bool) =
      .error "Invalid JSON in env var: truncated array" ∧
    preprocessEnvValue "[" (.scalar .bool) ≠ .ok (.vbool false) ∧
    preprocessEnvValue "[" (.scalar .bool) ≠ .ok (.vbool true) := by
  refine ⟨rfl, ?_, ?_⟩ <;> intro h <;>
    rw [show preprocessEnvValue "[" (.scalar .bool) =
      .error "Invalid JSON in env var: truncated array" from rfl] at h <;>
    exact Except.noConfusion h

/-- C5 as amended: for every raw string that does not trigger the
structured fast path (so its first character is not an opening brace or
bracket), coercion against the boolean type never fails and yields `true`
exactly when the lowercased string is one of the five truthy literals,
`false` for every other string. -/
theorem bool_coercion_truthy_literals (s : String) (h : structGuard s = false) :
    preprocessEnvValue s (.scalar .bool) =
      .ok (.vbool (["true", "1", "yes", "y", "t"].contains (asciiLower s))) := by
  simp [preprocessEnvValue, h, scalarCoerce]

/-- Witness for the amended C5 at the mixed-case truthy string YES. -/
theorem bool_coercion_truthy_literals_witness :
    structGuard "YES" = false ∧
    preprocessEnvValue "YES" (.scalar .bool) =
      .ok (.vbool (["true", "1", "yes", "y", "t"].contains (asciiLower "YES"))) :=
  ⟨rfl, bool_coercion_truthy_literals "YES" rfl⟩

/-- C7: coercing a raw string against an optional/union type equals
coercing it against the first member of the union that is not the
none/absence type. -/
theorem union_unwraps_to_first_non_none (v : String) (args : List ScalarType)
    (m : ScalarType) (rest : List ScalarType)
    (h : args.filter (fun a => ! a.isNoneType) = m :: rest) :
    preprocessEnvValue v (.union args) = preprocessEnvValue v (.scalar m) := by
  by_cases hg : structGuard v <;> simp [preprocessEnvValue, hg, h]

/-- Witness for C7 at the optional int type applied to the string 7. -/
theorem union_unwraps_to_first_non_none_witness :
    ([ScalarType.noneType, ScalarType.int].filter (fun a => ! a.isNoneType) =
      [ScalarType.int]) ∧
    preprocessEnvValue "7" (.union [.noneType, .int]) =
      preprocessEnvValue "7" (.scalar .int) :=
  ⟨rfl, union_unwraps_to_first_non_none "7" [.noneType, .int] .int [] rfl⟩

/-- C10: the structured fast path is guarded by an emptiness check, so the
empty raw string never enters structured-JSON parsing: coercion of the
empty string is always the type-directed dispatch, and against the string
type it returns the empty string unchanged.  (In the embedding every
access is total by construction; the guard shows the Python index
`env_value[0]` is protected by the truthiness test.) -/
theorem empty_string_falls_through :
    structGuard "" = false ∧
    (∀ t, preprocessEnvValue "" t =
      match t with
      | .scalar s => scalarCoerce "" s
      | .union args =>
        match args.filter (fun a => ! a.isNoneType) with
        | [] => .ok (.vstr "")
        | m :: _ => scalarCoerce "" m) ∧
    preprocessEnvValue "" (.scalar .str) = .ok (.vstr "") := by
  refine ⟨rfl, ?_, rfl⟩
  intro t
  simp only [preprocessEnvValue, show structGuard "" = false from rfl, Bool.false_eq_true,
    if_false]

/-- In an instantiation over fields with pairwise distinct names, a field
carrying a default and absent from the working map resolves to its schema
default. -/
theorem lookup_instantiateFields (values : List (String × Value)) (fd : FieldDecl) (d : Value)
    (fields : List FieldDecl) (hmem : fd ∈ fields)
    (hnd : (fields.map FieldDecl.name).Nodup)
    (habs : values.lookup fd.name = none) (hd : fd.default = some d) :
    (instantiateFields fields values).lookup fd.name = some d := by
  induction fields with
  | nil => exact absurd hmem (List.not_mem_nil fd)
  | cons f0 rest ih =>
    rw [List.map_cons, List.nodup_cons] at hnd
    rcases List.mem_cons.mp hmem with rfl | hmem2
    · simp only [instantiateFields, List.filterMap_cons, habs, hd]
      simp [List.lookup]
    · have hne : (fd.name == f0.name) = false := by
        rw [beq_eq_false_iff_ne]
        intro he
        exact hnd.1 (he ▸ List.mem_map_of_mem FieldDecl.name hmem2)
      have htail : (instantiateFields rest values).lookup fd.name = some d :=
        ih hmem2 hnd.2
      rcases hv : values.lookup f0.name with _ | v
      · rcases hd0 : f0.default with _ | d0
        · simpa only [instantiateFields, List.filterMap_cons, hv, hd0] using htail
        · simp only [instantiateFields, List.filterMap_cons, hv, hd0, List.lookup, hne]
          exact htail
      · simp only [instantiateFields, List.filterMap_cons, hv, List.lookup, hne]
        exact htail

/-- C2: with a non-empty override map, construction is the bulk decode of
the overrides alone — the loader state and the environment are returned
untouched (no env file is loaded, no variable is read), the result agrees
across any two host systems, loader states and environments, and a field
absent from the overrides resolves to its schema default rather than to
any environment value. -/
theorem overrides_bypass_environment
    (cfg : SettingsConfigDict) (anns : List FieldDecl) (overrides : List (String × Value))
    (sys sys2 : Sys) (st st2 : LoaderState) (env env2 : EnvMap)
    (fd : FieldDecl) (d : Value) (inst : List (String × Value))
    (hne : overrides ≠ [])
    (hnd : ((createStructFields anns).map FieldDecl.name).Nodup)
    (hfd : fd ∈ createStructFields anns)
    (hopt : fd.default = some d)
    (habs : overrides.lookup fd.name = none)
    (hinst : (settingsNew cfg anns overrides sys st env).1 = .ok inst) :
    settingsNew cfg anns overrides sys st env =
      (decodeFromDict (createStructFields anns) overrides, st, env) ∧
    (settingsNew cfg anns overrides sys st env).1 =
      (settingsNew cfg anns overrides sys2 st2 env2).1 ∧
    inst.lookup fd.name = some d := by
  have hie : overrides.isEmpty = false := by
    cases overrides with
    | nil => exact absurd rfl hne
    | cons o os => rfl
  have h1 : ∀ (sy : Sys) (s : LoaderState) (e : EnvMap),
      settingsNew cfg anns overrides sy s e =
        (decodeFromDict (createStructFields anns) overrides, s, e) := by
    intro sy s e
    simp [settingsNew, hie]
  refine ⟨h1 sys st env, by rw [h1, h1], ?_⟩
  rw [h1 sys st env] at hinst
  simp only [decodeFromDict] at hinst
  rcases hmr : missingRequiredName (createStructFields anns) overrides with _ | nm
  · rw [hmr] at hinst
    have heq : instantiateFields (createStructFields anns) overrides = inst := by
      injection hinst
    rw [← heq]
    exact lookup_instantiateFields overrides fd d (createStructFields anns) hfd hnd habs hopt
  · rw [hmr] at hinst
    exact Except.noConfusion hinst

/-- Witness for C2: overriding only `app_name` of a two-field settings
type bypasses an environment that carries values for both fields; the
`debug` field takes its schema default `false`, not the environment's
`true`, and two different host systems agree on the result. -/
theorem overrides_bypass_environment_witness :
    ([(("app_name" : String), Value.vstr "x")] ≠ []) ∧
    (((createStructFields
        [⟨"app_name", .scalar .str, none⟩, ⟨"debug", .scalar .bool, some (.vbool false)⟩]).map
          FieldDecl.name).Nodup) ∧
    (settingsNew {} [⟨"app_name", .scalar .str, none⟩, ⟨"debug", .scalar .bool, some (.vbool false)⟩]
        [("app_name", Value.vstr "x")] ⟨"/wd", fun _ => false, fun _ => []⟩ ⟨[], []⟩
        [("DEBUG", "true"), ("APP_NAME", "from-env")]).1 =
      .ok [("app_name", Value.vstr "x"), ("debug", Value.vbool false)] ∧
    (settingsNew {} [⟨"app_name", .scalar .str, none⟩, ⟨"debug", .scalar .bool, some (.vbool false)⟩]
        [("app_name", Value.vstr "x")] ⟨"/wd", fun _ => false, fun _ => []⟩ ⟨[], []⟩
        [("DEBUG", "true"), ("APP_NAME", "from-env")]).1 =
      (settingsNew {} [⟨"app_name", .scalar .str, none⟩, ⟨"debug", .scalar .bool, some (.vbool false)⟩]
        [("app_name", Value.vstr "x")] ⟨"/wd2", fun _ => true, fun _ => [("DEBUG", "true")]⟩
        ⟨[], []⟩ []).1 ∧
    ([("app_name", Value.vstr "x"), ("debug", Value.vbool false)].lookup "debug" =
      some (Value.vbool false)) := by
  have h := overrides_bypass_environment {}
    [⟨"app_name", .scalar .str, none⟩, ⟨"debug", .scalar .bool, some (.vbool false)⟩]
    [("app_name", Value.vstr "x")]
    ⟨"/wd", fun _ => false, fun _ => []⟩ ⟨"/wd2", fun _ => true, fun _ => [("DEBUG", "true")]⟩
    ⟨[], []⟩ ⟨[], []⟩ [("DEBUG", "true"), ("APP_NAME", "from-env")] []
    ⟨"debug", .scalar .bool, some (.vbool false)⟩ (Value.vbool false)
    [("app_name", Value.vstr "x"), ("debug", Value.vbool false)]
    (by intro hx; exact List.noConfusion hx)
    (by decide)
    (List.mem_cons_of_mem _ (List.mem_cons_self _ _))
    rfl rfl rfl
  exact ⟨by intro hx; exact List.noConfusion hx, by decide, rfl, h.2.1, h.2.2⟩

/-- C8: a required field absent from the working key/value map — the
environment-collected map when no overrides are given, the override map
otherwise — makes construction fail with a validation error naming a
missing required field (the first one the decode finds); no instance is
produced. -/
theorem missing_required_field_fails
    (cfg : SettingsConfigDict) (anns : List FieldDecl) (overrides : List (String × Value))
    (sys : Sys) (st : LoaderState) (env : EnvMap) (fd : FieldDecl)
    (m : List (String × Value))
    (hfd : fd ∈ createStructFields anns) (hreq : fd.default = none)
    (hcol : collectEnvValues cfg (createStructFields anns) (loadEnvFiles cfg sys st env).2 = .ok m)
    (hm : m.lookup fd.name = none)
    (hov : overrides.lookup fd.name = none) :
    (missingRequiredName (createStructFields anns)
        (if overrides.isEmpty then m else overrides)).isSome = true ∧
    (settingsNew cfg anns overrides sys st env).1 =
      .error ("Validation error: Object missing required field " ++
        (missingRequiredName (createStructFields anns)
          (if overrides.isEmpty then m else overrides)).getD "") ∧
    (missingRequiredName (createStructFields anns)
        (if overrides.isEmpty then m else overrides)).getD "" ∈
      ((createStructFields anns).filter
        (fun g => g.default.isNone &&
          (((if overrides.isEmpty then m else overrides).lookup g.name).isNone))).map
        FieldDecl.name := by
  have hwm : ((if overrides.isEmpty then m else overrides).lookup fd.name) = none := by
    cases overrides.isEmpty <;> simp [hm, hov]
  have hpred : (fun g => g.default.isNone &&
      (((if overrides.isEmpty then m else overrides).lookup g.name).isNone)) fd = true := by
    simp [hreq, hwm]
  have hsome : ((createStructFields anns).find? (fun g => g.default.isNone &&
      (((if overrides.isEmpty then m else overrides).lookup g.name).isNone))).isSome = true := by
    rw [List.find?_isSome]
    exact ⟨fd, hfd, hpred⟩
  rcases hg : (createStructFields anns).find? (fun g => g.default.isNone &&
      (((if overrides.isEmpty then m else overrides).lookup g.name).isNone)) with _ | g
  · rw [hg] at hsome; exact Bool.noConfusion hsome
  have hmrn : missingRequiredName (createStructFields anns)
      (if overrides.isEmpty then m else overrides) = some g.name := by
    simp only [missingRequiredName, hg]
  have hdecode : decodeFromDict (createStructFields anns)
      (if overrides.isEmpty then m else overrides) =
      .error ("Validation error: Object missing required field " ++ g.name) := by
    simp only [decodeFromDict, hmrn]
  refine ⟨by rw [hmrn]; rfl, ?_, ?_⟩
  · cases overrides with
    | nil =>
      simp only [List.isEmpty_nil, if_true] at hdecode hmrn
      rcases hl : loadEnvFiles cfg sys st env with ⟨st1, env1⟩
      have hcol2 : collectEnvValues cfg (createStructFields anns) env1 = .ok m := by
        rw [← hcol, hl]
      simp [settingsNew, hl, hcol2, hdecode, hmrn]
    | cons o os =>
      have hie2 : ((o :: os) : List (String × Value)).isEmpty = false := rfl
      simp only [hie2, Bool.false_eq_true, if_false] at hdecode hmrn
      simp [settingsNew, hie2, hdecode, hmrn]
  · rw [hmrn, Option.getD_some]
    have hgmem : g ∈ createStructFields anns := List.mem_of_find?_eq_some hg
    have hgp := List.find?_some hg
    exact List.mem_map_of_mem FieldDecl.name (List.mem_filter.mpr ⟨hgmem, hgp⟩)

/-- Witness for C8 at the spec's scenario B: the single required field
`app_name` is absent from the environment and no overrides are given, so
construction fails naming `app_name`. -/
theorem missing_required_field_fails_witness :
    ((⟨"app_name", .scalar .str, none⟩ : FieldDecl) ∈
      createStructFields [⟨"app_name", .scalar .str, none⟩]) ∧
    (collectEnvValues {} (createStructFields [⟨"app_name", .scalar .str, none⟩])
      (loadEnvFiles {} ⟨"/wd", fun _ => false, fun _ => []⟩ ⟨[], []⟩ []).2 = .ok []) ∧
    (settingsNew {} [⟨"app_name", .scalar .str, none⟩] [] ⟨"/wd", fun _ => false, fun _ => []⟩
        ⟨[], []⟩ []).1 =
      .error ("Validation error: Object missing required field " ++
        (missingRequiredName (createStructFields [⟨"app_name", .scalar .str, none⟩])
          (if ([] : List (String × Value)).isEmpty then ([] : List (String × Value))
            else [])).getD "") := by
  have h := missing_required_field_fails {} [⟨"app_name", .scalar .str, none⟩] []
    ⟨"/wd", fun _ => false, fun _ => []⟩ ⟨[], []⟩ [] ⟨"app_name", .scalar .str, none⟩ []
    (List.mem_cons_self _ _) rfl rfl rfl rfl
  exact ⟨List.mem_cons_self _ _, rfl, h.2.1⟩

/-- A key bound in the left list keeps its binding after appending. -/
theorem lookup_append_left {β : Type} (l l2 : List (String × β)) (k : String) (v : β)
    (h : l.lookup k = some v) : (l ++ l2).lookup k = some v := by
  induction l with
  | nil => exact absurd h (by simp)
  | cons kv rest ih =>
    rcases kv with ⟨a, b⟩
    rcases hk : (k == a) with _ | _
    · simp only [List.cons_append, List.lookup, hk] at h ⊢
      exact ih h
    · simp only [List.cons_append, List.lookup, hk] at h ⊢
      exact h

/-- Appending a binding for a key absent from the list makes it found. -/
theorem lookup_append_absent {β : Type} (l : List (String × β)) (f : String) (v : β)
    (h : l.lookup f = none) : (l ++ [(f, v)]).lookup f = some v := by
  induction l with
  | nil => simp [List.lookup]
  | cons kv rest ih =>
    rcases kv with ⟨a, b⟩
    rcases hk : (f == a) with _ | _
    · simp only [List.cons_append, List.lookup, hk] at h ⊢
      exact ih h
    · simp only [List.lookup, hk] at h
      exact Option.noConfusion h

/-- An insert-if-absent of any binding preserves every present binding. -/
theorem lookup_setIfAbsent (env : EnvMap) (k k2 v2 : String) (v : String)
    (h : env.lookup k = some v) : (setIfAbsent env k2 v2).lookup k = some v := by
  rcases hl : env.lookup k2 with _ | w
  · simp only [setIfAbsent, hl]
    exact lookup_append_left env [(k2, v2)] k v h
  · simp only [setIfAbsent, hl]
    exact h

/-- The dotenv merge never overwrites a key already present in the
environment. -/
theorem lookup_dotenvMerge (entries : List (String × String)) :
    ∀ (env : EnvMap) (k v : String), env.lookup k = some v →
      (dotenvMerge env entries).lookup k = some v := by
  induction entries with
  | nil =>
    intro env k v h
    simpa [dotenvMerge] using h
  | cons e es ih =>
    intro env k v h
    simp only [dotenvMerge, List.foldl_cons]
    exact ih (setIfAbsent env e.1 e.2) k v (lookup_setIfAbsent env k e.1 e.2 v h)

/-- A no-override construction changes the loader state and environment
exactly as the env-file loader does: collection and decoding read the
environment but never write it. -/
theorem constructStep_eq_loadEnvFiles (cfg : SettingsConfigDict) (anns : List FieldDecl)
    (sys : Sys) (p : LoaderState × EnvMap) :
    constructStep cfg anns sys p = loadEnvFiles cfg sys p.1 p.2 := by
  rcases hl : loadEnvFiles cfg sys p.1 p.2 with ⟨st1, env1⟩
  simp only [constructStep, settingsNew, List.isEmpty_nil, if_true, hl]
  rcases collectEnvValues cfg (createStructFields anns) env1 with e | m <;> rfl

/-- Applying the env-file loader to its own output is a no-op: after one
call the resolved path is either already recorded in the loaded set or the
file was absent, and the literal-path cache resolves to the same key. -/
theorem loadEnvFiles_idem (cfg : SettingsConfigDict) (sys : Sys) (st : LoaderState)
    (env : EnvMap) :
    loadEnvFiles cfg sys (loadEnvFiles cfg sys st env).1 (loadEnvFiles cfg sys st env).2 =
      loadEnvFiles cfg sys st env := by
  rcases hf : cfg.envFile with _ | f
  · simp [loadEnvFiles, hf]
  by_cases hfe : f = ""
  · simp [loadEnvFiles, hf, hfe]
  rcases hc : st.absolutePathCache.lookup f with _ | k0
  · have hc2 : (st.absolutePathCache ++ [(f, absolutePath sys.cwd f)]).lookup f =
        some (absolutePath sys.cwd f) := lookup_append_absent _ _ _ hc
    by_cases hmem : absolutePath sys.cwd f ∈ st.loadedEnvFiles
    · have h1 : loadEnvFiles cfg sys st env =
          ({ st with absolutePathCache :=
              st.absolutePathCache ++ [(f, absolutePath sys.cwd f)] }, env) := by
        simp [loadEnvFiles, hf, hfe, resolveCacheKey, hc, hmem]
      rw [h1]
      simp [loadEnvFiles, hf, hfe, resolveCacheKey, hc2, hmem]
    · by_cases hex : sys.fileExists f = true
      · have h1 : loadEnvFiles cfg sys st env =
            (⟨st.absolutePathCache ++ [(f, absolutePath sys.cwd f)],
              st.loadedEnvFiles ++ [absolutePath sys.cwd f]⟩,
              dotenvMerge env (sys.fileContent f)) := by
          simp [loadEnvFiles, hf, hfe, resolveCacheKey, hc, hmem, hex]
        rw [h1]
        have hmem2 : absolutePath sys.cwd f ∈
            st.loadedEnvFiles ++ [absolutePath sys.cwd f] :=
          List.mem_append_right _ (List.mem_cons_self _ _)
        simp [loadEnvFiles, hf, hfe, resolveCacheKey, hc2, hmem2]
      · have h1 : loadEnvFiles cfg sys st env =
            ({ st with absolutePathCache :=
                st.absolutePathCache ++ [(f, absolutePath sys.cwd f)] }, env) := by
          simp [loadEnvFiles, hf, hfe, resolveCacheKey, hc, hmem, hex]
        rw [h1]
        simp [loadEnvFiles, hf, hfe, resolveCacheKey, hc2, hmem, hex]
  · by_cases hmem : k0 ∈ st.loadedEnvFiles
    · have h1 : loadEnvFiles cfg sys st env = (st, env) := by
        simp [loadEnvFiles, hf, hfe, resolveCacheKey, hc, hmem]
      rw [h1]
      exact h1
    · by_cases hex : sys.fileExists f = true
      · have h1 : loadEnvFiles cfg sys st env =
            (⟨st.absolutePathCache, st.loadedEnvFiles ++ [k0]⟩,
              dotenvMerge env (sys.fileContent f)) := by
          simp [loadEnvFiles, hf, hfe, resolveCacheKey, hc, hmem, hex]
        rw [h1]
        have hmem2 : k0 ∈ st.loadedEnvFiles ++ [k0] :=
          List.mem_append_right _ (List.mem_cons_self _ _)
        simp [loadEnvFiles, hf, hfe, resolveCacheKey, hc, hmem2]
      · have h1 : loadEnvFiles cfg sys st env = (st, env) := by
          simp [loadEnvFiles, hf, hfe, resolveCacheKey, hc, hmem, hex]
        rw [h1]
        exact h1

/-- The env-file loader never overwrites a key already present in the
process environment. -/
theorem loadEnvFiles_env_preserves (cfg : SettingsConfigDict) (sys : Sys) (st : LoaderState)
    (env : EnvMap) (k v : String) (h : env.lookup k = some v) :
    ((loadEnvFiles cfg sys st env).2).lookup k = some v := by
  rcases hf : cfg.envFile with _ | f
  · simpa [loadEnvFiles, hf] using h
  by_cases hfe : f = ""
  · simpa [loadEnvFiles, hf, hfe] using h
  by_cases hmem : resolveCacheKey st sys.cwd f ∈ st.loadedEnvFiles
  · simpa [loadEnvFiles, hf, hfe, hmem] using h
  by_cases hex : sys.fileExists f = true
  · have h1 : (loadEnvFiles cfg sys st env).2 = dotenvMerge env (sys.fileContent f) := by
      simp [loadEnvFiles, hf, hfe, hmem, hex]
    rw [h1]
    exact lookup_dotenvMerge (sys.fileContent f) env k v h
  · simpa [loadEnvFiles, hf, hfe, hmem, hex] using h

/-- C3: across any number N of no-override constructions, the state and
environment after N constructions equal those after one — the env file is
merged into the environment at most once, later loads being no-ops on the
loaded set and the environment — and a key already present in the process
environment keeps its original value through a construction. -/
theorem env_file_merged_at_most_once
    (cfg : SettingsConfigDict) (anns : List FieldDecl) (sys : Sys)
    (st : LoaderState) (env : EnvMap) (n : Nat) (k v : String)
    (hn : 1 ≤ n) (hk : env.lookup k = some v) :
    (constructStep cfg anns sys)^[n] (st, env) = constructStep cfg anns sys (st, env) ∧
    ((constructStep cfg anns sys (st, env)).2).lookup k = some v := by
  have hidem : ∀ p : LoaderState × EnvMap,
      constructStep cfg anns sys (constructStep cfg anns sys p) =
        constructStep cfg anns sys p := by
    intro p
    rw [constructStep_eq_loadEnvFiles, constructStep_eq_loadEnvFiles]
    exact loadEnvFiles_idem cfg sys p.1 p.2
  constructor
  · rcases n with _ | m
    · exact absurd hn (by omega)
    · induction m with
      | zero => rfl
      | succ m2 ih =>
        rw [Function.iterate_succ_apply', ih (by omega)]
        exact hidem _
  · rw [constructStep_eq_loadEnvFiles]
    exact loadEnvFiles_env_preserves cfg sys st env k v hk

/-- Witness for C3: two constructions against a file providing a key that
the environment already binds; the second construction changes nothing and
the environment's original binding survives. -/
theorem env_file_merged_at_most_once_witness :
    (1 ≤ 2) ∧
    (([("A", "0")] : EnvMap).lookup "A" = some "0") ∧
    ((constructStep { envFile := some ".env" } [⟨"a", .scalar .str, some (.vstr "d")⟩]
        ⟨"/wd", fun p => p == ".env", fun p => if p == ".env" then [("A", "1")] else []⟩)^[2]
        (⟨[], []⟩, [("A", "0")]) =
      constructStep { envFile := some ".env" } [⟨"a", .scalar .str, some (.vstr "d")⟩]
        ⟨"/wd", fun p => p == ".env", fun p => if p == ".env" then [("A", "1")] else []⟩
        (⟨[], []⟩, [("A", "0")]) ∧
    ((constructStep { envFile := some ".env" } [⟨"a", .scalar .str, some (.vstr "d")⟩]
        ⟨"/wd", fun p => p == ".env", fun p => if p == ".env" then [("A", "1")] else []⟩
        (⟨[], []⟩, [("A", "0")])).2).lookup "A" = some "0") :=
  ⟨by omega, rfl,
    env_file_merged_at_most_once { envFile := some ".env" }
      [⟨"a", .scalar .str, some (.vstr "d")⟩]
      ⟨"/wd", fun p => p == ".env", fun p => if p == ".env" then [("A", "1")] else []⟩
      ⟨[], []⟩ [("A", "0")] 2 "A" "0" (by omega) rfl⟩

/-- C9: when the configured env file does not exist at load time, the
loader leaves the environment unchanged and does not mark the path loaded,
so a later construction against a system where the file now exists merges
its contents and records the path. -/
theorem missing_env_file_not_marked_loaded
    (cfg : SettingsConfigDict) (sys sys2 : Sys) (st : LoaderState) (env : EnvMap) (f : String)
    (hf : cfg.envFile = some f) (hfe : f ≠ "")
    (hex : sys.fileExists f = false)
    (hkey : resolveCacheKey st sys.cwd f ∉ st.loadedEnvFiles)
    (hex2 : sys2.fileExists f = true) :
    (loadEnvFiles cfg sys st env).2 = env ∧
    (loadEnvFiles cfg sys st env).1.loadedEnvFiles = st.loadedEnvFiles ∧
    (loadEnvFiles cfg sys2 (loadEnvFiles cfg sys st env).1 env).2 =
      dotenvMerge env (sys2.fileContent f) ∧
    resolveCacheKey st sys.cwd f ∈
      (loadEnvFiles cfg sys2 (loadEnvFiles cfg sys st env).1 env).1.loadedEnvFiles := by
  have hexf : ¬ (sys.fileExists f = true) := by rw [hex]; exact Bool.false_ne_true
  rcases hc : st.absolutePathCache.lookup f with _ | k0
  · have hk : resolveCacheKey st sys.cwd f = absolutePath sys.cwd f := by
      simp [resolveCacheKey, hc]
    have hkeym : absolutePath sys.cwd f ∉ st.loadedEnvFiles := hk ▸ hkey
    have hc2 : (st.absolutePathCache ++ [(f, absolutePath sys.cwd f)]).lookup f =
        some (absolutePath sys.cwd f) := lookup_append_absent _ _ _ hc
    have h1 : loadEnvFiles cfg sys st env =
        ({ st with absolutePathCache :=
            st.absolutePathCache ++ [(f, absolutePath sys.cwd f)] }, env) := by
      simp [loadEnvFiles, hf, hfe, resolveCacheKey, hc, hkeym, hexf]
    have h2 : loadEnvFiles cfg sys2
        ({ st with absolutePathCache :=
            st.absolutePathCache ++ [(f, absolutePath sys.cwd f)] }) env =
        (⟨st.absolutePathCache ++ [(f, absolutePath sys.cwd f)],
          st.loadedEnvFiles ++ [absolutePath sys.cwd f]⟩,
          dotenvMerge env (sys2.fileContent f)) := by
      simp [loadEnvFiles, hf, hfe, resolveCacheKey, hc2, hkeym, hex2]
    rw [h1, h2, hk]
    exact ⟨rfl, rfl, rfl, List.mem_append_right _ (List.mem_cons_self _ _)⟩
  · have hk : resolveCacheKey st sys.cwd f = k0 := by
      simp [resolveCacheKey, hc]
    have hkeym : k0 ∉ st.loadedEnvFiles := hk ▸ hkey
    have h1 : loadEnvFiles cfg sys st env = (st, env) := by
      simp [loadEnvFiles, hf, hfe, resolveCacheKey, hc, hkeym, hexf]
    have h2 : loadEnvFiles cfg sys2 st env =
        (⟨st.absolutePathCache, st.loadedEnvFiles ++ [k0]⟩,
          dotenvMerge env (sys2.fileContent f)) := by
      simp [loadEnvFiles, hf, hfe, resolveCacheKey, hc, hkeym, hex2]
    rw [h1, h2, hk]
    exact ⟨rfl, rfl, rfl, List.mem_append_right _ (List.mem_cons_self _ _)⟩

/-- Witness for C9: a configured file absent on the first system and
present with one entry on the second; the first load is a no-op and the
second merges the entry and marks the path. -/
theorem missing_env_file_not_marked_loaded_witness :
    (({ envFile := some ".env" } : SettingsConfigDict).envFile = some ".env") ∧
    ((⟨"/wd", fun _ => false, fun _ => []⟩ : Sys).fileExists ".env" = false) ∧
    (resolveCacheKey ⟨[], []⟩ "/wd" ".env" ∉ (⟨[], []⟩ : LoaderState).loadedEnvFiles) ∧
    ((loadEnvFiles { envFile := some ".env" } ⟨"/wd", fun _ => false, fun _ => []⟩
        ⟨[], []⟩ []).2 = ([] : EnvMap) ∧
    (loadEnvFiles { envFile := some ".env" } ⟨"/wd", fun _ => false, fun _ => []⟩
        ⟨[], []⟩ []).1.loadedEnvFiles = (⟨[], []⟩ : LoaderState).loadedEnvFiles ∧
    (loadEnvFiles { envFile := some ".env" }
        ⟨"/wd2", fun _ => true, fun _ => [("API_KEY", "key123")]⟩
        (loadEnvFiles { envFile := some ".env" } ⟨"/wd", fun _ => false, fun _ => []⟩
          ⟨[], []⟩ []).1 []).2 =
      dotenvMerge [] ((fun _ => [("API_KEY", "key123")]) ".env") ∧
    resolveCacheKey ⟨[], []⟩ "/wd" ".env" ∈
      (loadEnvFiles { envFile := some ".env" }
        ⟨"/wd2", fun _ => true, fun _ => [("API_KEY", "key123")]⟩
        (loadEnvFiles { envFile := some ".env" } ⟨"/wd", fun _ => false, fun _ => []⟩
          ⟨[], []⟩ []).1 []).1.loadedEnvFiles) :=
  ⟨rfl, rfl, by simp [resolveCacheKey, absolutePath],
    missing_env_file_not_marked_loaded { envFile := some ".env" }
      ⟨"/wd", fun _ => false, fun _ => []⟩
      ⟨"/wd2", fun _ => true, fun _ => [("API_KEY", "key123")]⟩
      ⟨[], []⟩ [] ".env" rfl (by decide) rfl
      (by simp [resolveCacheKey, absolutePath]) rfl⟩

end MsgspecExt
